import Mathlib

set_option maxRecDepth 4000

/-!
# Verification of the audio pipeline and connection/session lifecycle

Shallow embedding of the repository's core subsystems:

* the capture batcher (`enqueueInput` / `drainInputBatches` / `flushPendingInput`
  from `AudioService`),
* the base64 wire-format helpers (`encode` / `decode` from the utils module),
* the playback scheduler (`scheduleOutputIfNeeded`, `interruptPlayback`,
  `getBufferedOutputSeconds`, `hasActiveOutput` from `AudioService`),
* the connection/session state machine of the assistant view
  (`initSession`, `scheduleReconnect`, `handleConnectionIssue`,
  `handleUnsupportedModel`, the socket callbacks and the error classifiers).

Machine floats are modelled with `ℚ`; sample values with `Int`; DOM timers are
modelled as explicit pending-task data so their later firing is an explicit
transition.  All mutation happens on a single event loop, so each callback is a
pure state-transition function.
-/

namespace AudioPipeline

/-- Batch size: 40 ms at 16 kHz mono (`INPUT_BATCH_SAMPLES` in `AudioService`). -/
def INPUT_BATCH_SAMPLES : Nat := 640

/-- The input-batching state of `AudioService`: the backlog of captured chunks
(`pendingInputChunks`) together with the maintained running total
(`pendingSamples`). -/
structure BatcherState where
  pendingInputChunks : List (List Int)
  pendingSamples : Nat
deriving Repr, DecidableEq

/-- Embeds `enqueueInput(chunk)`: empty chunks are ignored; otherwise the chunk
is appended to the backlog and the running total is bumped. -/
def enqueueInput (st : BatcherState) (chunk : List Int) : BatcherState :=
  if chunk.length = 0 then st
  else
    { pendingInputChunks := st.pendingInputChunks ++ [chunk]
      pendingSamples := st.pendingSamples + chunk.length }

/-- Embeds the inner copy loop of `drainInputBatches`: copy `remaining` samples
out of the chunk list, consuming whole chunks (`shift`) or splitting the head
chunk (`subarray`) exactly as the source does.  Returns the copied samples and
the remaining backlog. -/
def copyLoop (remaining : Nat) (chunks : List (List Int)) :
    List Int × List (List Int) :=
  if h : remaining = 0 ∨ chunks = [] then ([], chunks)
  else
    match chunks with
    | [] => ([], [])
    | head :: rest =>
      let toCopy := min remaining head.length
      if htc : toCopy = head.length then
        let r := copyLoop (remaining - toCopy) rest
        (head.take toCopy ++ r.1, r.2)
      else
        let r := copyLoop (remaining - toCopy) (head.drop toCopy :: rest)
        (head.take toCopy ++ r.1, r.2)
termination_by chunks.length + remaining
decreasing_by
  · simp only [List.length_cons]
    have hr : remaining ≠ 0 := by
      intro h0; exact h (Or.inl h0)
    omega
  · have hr : remaining ≠ 0 := by
      intro h0; exact h (Or.inl h0)
    have hlt : toCopy = remaining ∧ remaining < head.length := by
      simp only [toCopy, Nat.min_def] at htc ⊢
      split at htc <;> split <;> omega
    simp only [List.length_cons]
    omega

/-- Embeds the outer `while` loop of `drainInputBatches`: while the backlog
holds at least one full batch, slice `INPUT_BATCH_SAMPLES` samples into a
zero-initialised fixed-size buffer and emit it.  Returns the emitted batches in
order together with the final state. -/
def drainInputBatches (st : BatcherState) : List (List Int) × BatcherState :=
  if h : INPUT_BATCH_SAMPLES ≤ st.pendingSamples then
    let r := copyLoop INPUT_BATCH_SAMPLES st.pendingInputChunks
    -- the JS `out` is a zero-filled Float32Array(INPUT_BATCH_SAMPLES);
    -- positions the copy loop did not reach stay zero
    let out := (r.1 ++ List.replicate INPUT_BATCH_SAMPLES 0).take INPUT_BATCH_SAMPLES
    let st' : BatcherState :=
      { pendingInputChunks := r.2
        pendingSamples := st.pendingSamples - INPUT_BATCH_SAMPLES }
    let rec' := drainInputBatches st'
    (out :: rec'.1, rec'.2)
  else ([], st)
termination_by st.pendingSamples
decreasing_by
  simp only [INPUT_BATCH_SAMPLES] at h ⊢
  omega

/-- Embeds `flushPendingInput()`: nothing to do on an empty backlog; otherwise
concatenate every pending chunk into one buffer of `pendingSamples` samples,
emit it, and clear the backlog. -/
def flushPendingInput (st : BatcherState) : List (List Int) × BatcherState :=
  if st.pendingSamples = 0 then ([], st)
  else
    -- the JS `out` is a zero-filled Float32Array(pendingSamples) into which the
    -- chunks are written back to back
    let out := (st.pendingInputChunks.flatten ++
        List.replicate st.pendingSamples 0).take st.pendingSamples
    ([out], { pendingInputChunks := [], pendingSamples := 0 })

/-- The worklet `onmessage` handler: each arriving chunk is enqueued and the
backlog immediately drained; emitted batches accumulate in arrival order. -/
def processChunks (st : BatcherState) : List (List Int) → List (List Int) × BatcherState
  | [] => ([], st)
  | c :: cs =>
    let r := drainInputBatches (enqueueInput st c)
    let r' := processChunks r.2 cs
    (r.1 ++ r'.1, r'.2)

/-- The bookkeeping invariant of the batcher: `pendingSamples` equals the total
number of backlogged samples. -/
def BatcherInv (st : BatcherState) : Prop :=
  st.pendingSamples = st.pendingInputChunks.flatten.length

theorem enqueueInput_inv {st : BatcherState} (h : BatcherInv st) (c : List Int) :
    BatcherInv (enqueueInput st c) := by
  unfold BatcherInv enqueueInput at *
  split
  · exact h
  · simp [h]

theorem enqueueInput_flatten (st : BatcherState) (c : List Int) :
    (enqueueInput st c).pendingInputChunks.flatten =
      st.pendingInputChunks.flatten ++ c := by
  unfold enqueueInput
  split
  · rename_i hc
    simp [List.eq_nil_of_length_eq_zero hc]
  · simp

/-- The copy loop extracts exactly the first `remaining` backlogged samples and
leaves the rest, provided the backlog is long enough. -/
theorem copyLoop_spec (remaining : Nat) (chunks : List (List Int))
    (h : remaining ≤ chunks.flatten.length) :
    (copyLoop remaining chunks).1 = chunks.flatten.take remaining ∧
      (copyLoop remaining chunks).2.flatten = chunks.flatten.drop remaining := by
  induction remaining, chunks using copyLoop.induct with
  | case1 a b hc =>
    rw [copyLoop]
    simp only [dif_pos hc]
    rcases hc with hc | hc
    · simp [hc]
    · subst hc
      simp only [List.flatten_nil, List.length_nil, Nat.le_zero] at h
      simp [h]
  | case2 a hc hc2 =>
    simp only [List.flatten_nil, List.length_nil, Nat.le_zero] at h
    exact absurd (Or.inl h) hc
  | case3 a b c hne toCopy htc hne2 ih =>
    have htcv : toCopy = a ⊓ b.length := rfl
    rw [htcv] at htc ih
    rw [copyLoop]
    simp only [dif_neg hne]
    simp only [List.flatten_cons, List.length_append] at h
    have hble : b.length ≤ a := by
      rcases Nat.lt_or_ge a b.length with hl | hl
      · rw [Nat.min_eq_left (le_of_lt hl)] at htc
        omega
      · exact hl
    rw [dif_pos htc]
    rw [htc] at ih
    have hrec := ih (by omega)
    simp only [List.flatten_cons]
    rw [htc]
    refine ⟨?_, ?_⟩
    · rw [List.take_append_eq_append_take, List.take_of_length_le hble,
        List.take_length, hrec.1]
    · rw [List.drop_append_eq_append_drop, List.drop_eq_nil_of_le hble,
        List.nil_append, hrec.2]
  | case4 a b c hne toCopy htc hne2 ih =>
    have htcv : toCopy = a ⊓ b.length := rfl
    rw [htcv] at htc ih
    rw [copyLoop]
    simp only [dif_neg hne]
    simp only [List.flatten_cons, List.length_append] at h
    have ha0 : a ≠ 0 := fun h0 => hne (Or.inl h0)
    have hblt : a < b.length := by
      rcases Nat.lt_or_ge a b.length with hl | hl
      · exact hl
      · exact absurd (Nat.min_eq_right hl) htc
    have hmin : a ⊓ b.length = a := Nat.min_eq_left (le_of_lt hblt)
    rw [dif_neg htc]
    rw [hmin] at ih
    simp only [Nat.sub_self] at ih
    have hrec := ih (by simp)
    rw [hmin]
    simp only [Nat.sub_self]
    simp only [List.flatten_cons] at hrec ⊢
    rw [List.take_zero, List.drop_zero] at hrec
    refine ⟨?_, ?_⟩
    · rw [hrec.1, List.append_nil, List.take_append_eq_append_take]
      have h0 : a - b.length = 0 := by omega
      rw [h0, List.take_zero, List.append_nil]
    · rw [hrec.2, List.drop_append_eq_append_drop]
      have h0 : a - b.length = 0 := by omega
      rw [h0, List.drop_zero]

/-- One drain pass preserves the invariant, leaves fewer than one batch of
backlog, emits only full batches, and the emitted samples followed by the
leftover backlog are exactly the original backlog. -/
theorem drainInputBatches_spec (st : BatcherState) (h : BatcherInv st) :
    BatcherInv (drainInputBatches st).2 ∧
      (drainInputBatches st).2.pendingSamples < INPUT_BATCH_SAMPLES ∧
      (∀ b ∈ (drainInputBatches st).1, b.length = INPUT_BATCH_SAMPLES) ∧
      (drainInputBatches st).1.flatten ++
          (drainInputBatches st).2.pendingInputChunks.flatten =
        st.pendingInputChunks.flatten := by
  induction st using drainInputBatches.induct with
  | case1 st hge r stp ih =>
    have hlen : INPUT_BATCH_SAMPLES ≤ st.pendingInputChunks.flatten.length := by
      rw [← h]; exact hge
    have hcopy := copyLoop_spec INPUT_BATCH_SAMPLES st.pendingInputChunks hlen
    have hr1len : (copyLoop INPUT_BATCH_SAMPLES st.pendingInputChunks).1.length =
        INPUT_BATCH_SAMPLES := by
      rw [hcopy.1, List.length_take]
      omega
    have houtval : List.take INPUT_BATCH_SAMPLES
        ((copyLoop INPUT_BATCH_SAMPLES st.pendingInputChunks).1 ++
          List.replicate INPUT_BATCH_SAMPLES (0 : Int)) =
        (copyLoop INPUT_BATCH_SAMPLES st.pendingInputChunks).1 := by
      exact List.take_left' hr1len
    have hinv' : BatcherInv stp := by
      show st.pendingSamples - INPUT_BATCH_SAMPLES =
        (copyLoop INPUT_BATCH_SAMPLES st.pendingInputChunks).2.flatten.length
      rw [hcopy.2, List.length_drop, ← h]
    have hmain := ih hinv'
    rw [drainInputBatches]
    simp only [dif_pos hge]
    refine ⟨hmain.1, hmain.2.1, ?_, ?_⟩
    · intro b hb
      simp only [List.mem_cons] at hb
      rcases hb with hb | hb
      · rw [hb, houtval, hr1len]
      · exact hmain.2.2.1 b hb
    · show (List.take INPUT_BATCH_SAMPLES
          ((copyLoop INPUT_BATCH_SAMPLES st.pendingInputChunks).1 ++
            List.replicate INPUT_BATCH_SAMPLES (0 : Int)) ++
          (drainInputBatches stp).1.flatten) ++
          (drainInputBatches stp).2.pendingInputChunks.flatten =
          st.pendingInputChunks.flatten
      rw [houtval, List.append_assoc, hmain.2.2.2]
      show (copyLoop INPUT_BATCH_SAMPLES st.pendingInputChunks).1 ++
          (copyLoop INPUT_BATCH_SAMPLES st.pendingInputChunks).2.flatten =
          st.pendingInputChunks.flatten
      rw [hcopy.1, hcopy.2]
      exact List.take_append_drop _ _
  | case2 st hlt =>
    rw [drainInputBatches]
    simp only [dif_neg hlt]
    exact ⟨h, by omega, by simp, by simp⟩

/-- Running the worklet handler over a chunk sequence preserves the invariant,
leaves less than one batch of leftover, emits only full batches, and emits the
samples in order. -/
theorem processChunks_spec (cs : List (List Int)) (st : BatcherState)
    (h : BatcherInv st) (hlt : st.pendingSamples < INPUT_BATCH_SAMPLES) :
    BatcherInv (processChunks st cs).2 ∧
      (processChunks st cs).2.pendingSamples < INPUT_BATCH_SAMPLES ∧
      (∀ b ∈ (processChunks st cs).1, b.length = INPUT_BATCH_SAMPLES) ∧
      (processChunks st cs).1.flatten ++
          (processChunks st cs).2.pendingInputChunks.flatten =
        st.pendingInputChunks.flatten ++ cs.flatten := by
  induction cs generalizing st with
  | nil =>
    simp only [processChunks]
    exact ⟨h, hlt, by simp, by simp⟩
  | cons c cs ih =>
    have henq := enqueueInput_inv h c
    have hdr := drainInputBatches_spec (enqueueInput st c) henq
    have hrec := ih _ hdr.1 hdr.2.1
    simp only [processChunks]
    refine ⟨hrec.1, hrec.2.1, ?_, ?_⟩
    · intro b hb
      simp only [List.mem_append] at hb
      rcases hb with hb | hb
      · exact hdr.2.2.1 b hb
      · exact hrec.2.2.1 b hb
    · simp only [List.flatten_append, List.append_assoc, List.flatten_cons]
      rw [hrec.2.2.2, ← List.append_assoc, hdr.2.2.2, enqueueInput_flatten,
        List.append_assoc]

/-- C5: starting from an empty batcher, enqueueing chunks whose total sample
count is `640 * k` and draining after every enqueue emits exactly `k` batches,
each of exactly 640 samples, whose concatenation equals the concatenation of
the enqueued chunks; no samples are left behind. -/
theorem C5_drain_exact_batches (cs : List (List Int)) (k : Nat)
    (h : cs.flatten.length = INPUT_BATCH_SAMPLES * k) :
    (processChunks ⟨[], 0⟩ cs).1.length = k ∧
      (∀ b ∈ (processChunks ⟨[], 0⟩ cs).1, b.length = INPUT_BATCH_SAMPLES) ∧
      (processChunks ⟨[], 0⟩ cs).1.flatten = cs.flatten ∧
      (processChunks ⟨[], 0⟩ cs).2.pendingSamples = 0 := by
  have hinv : BatcherInv (⟨[], 0⟩ : BatcherState) := by
    simp [BatcherInv]
  have hspec := processChunks_spec cs ⟨[], 0⟩ hinv (by simp [INPUT_BATCH_SAMPLES])
  obtain ⟨hinv', hlt, hall, hflat⟩ := hspec
  simp only [List.flatten_nil, List.nil_append] at hflat
  have hmapped : (processChunks ⟨[], 0⟩ cs).1.map List.length =
      List.replicate (processChunks ⟨[], 0⟩ cs).1.length INPUT_BATCH_SAMPLES := by
    rw [List.eq_replicate_iff]
    refine ⟨by simp, ?_⟩
    intro b hb
    simp only [List.mem_map] at hb
    obtain ⟨x, hx, rfl⟩ := hb
    exact hall x hx
  have hblen : (processChunks ⟨[], 0⟩ cs).1.flatten.length =
      (processChunks ⟨[], 0⟩ cs).1.length * INPUT_BATCH_SAMPLES := by
    rw [List.length_flatten, hmapped, List.sum_replicate, smul_eq_mul]
  have hlens := congrArg List.length hflat
  rw [List.length_append, hblen, h] at hlens
  have hLlen : (processChunks ⟨[], 0⟩ cs).2.pendingInputChunks.flatten.length =
      (processChunks ⟨[], 0⟩ cs).2.pendingSamples := hinv'.symm
  have hps0 : (processChunks ⟨[], 0⟩ cs).2.pendingSamples = 0 ∧
      (processChunks ⟨[], 0⟩ cs).1.length = k := by
    rw [hLlen] at hlens
    simp only [INPUT_BATCH_SAMPLES] at hlens hlt ⊢
    omega
  have hLnil : (processChunks ⟨[], 0⟩ cs).2.pendingInputChunks.flatten = [] := by
    apply List.eq_nil_of_length_eq_zero
    rw [hLlen, hps0.1]
  refine ⟨hps0.2, hall, ?_, hps0.1⟩
  rw [← hflat, hLnil, List.append_nil]

/-- C5 witness: two chunks of 300 and 340 samples make exactly one 640-sample
batch, crossing the chunk boundary, with no leftover. -/
theorem C5_drain_exact_batches_witness :
    ([List.replicate 300 (1 : Int), List.replicate 340 (2 : Int)].flatten.length =
        INPUT_BATCH_SAMPLES * 1) ∧
      ((processChunks ⟨[], 0⟩
          [List.replicate 300 (1 : Int), List.replicate 340 (2 : Int)]).1.length = 1 ∧
        (∀ b ∈ (processChunks ⟨[], 0⟩
            [List.replicate 300 (1 : Int), List.replicate 340 (2 : Int)]).1,
          b.length = INPUT_BATCH_SAMPLES) ∧
        (processChunks ⟨[], 0⟩
            [List.replicate 300 (1 : Int), List.replicate 340 (2 : Int)]).1.flatten =
          [List.replicate 300 (1 : Int), List.replicate 340 (2 : Int)].flatten ∧
        (processChunks ⟨[], 0⟩
            [List.replicate 300 (1 : Int), List.replicate 340 (2 : Int)]).2.pendingSamples = 0) :=
  ⟨by decide, C5_drain_exact_batches _ 1 (by decide)⟩

/-- C9: after a partial backlog of `k` samples (`0 < k < 640`) the drains emit
nothing, one flush emits exactly one batch holding the leftover samples in
original order, and a second flush with no new data emits nothing. -/
theorem C9_flush_partial_backlog (cs : List (List Int)) (k : Nat)
    (hk : cs.flatten.length = k) (h0 : 0 < k) (hlt640 : k < INPUT_BATCH_SAMPLES) :
    (processChunks ⟨[], 0⟩ cs).1 = [] ∧
      (flushPendingInput (processChunks ⟨[], 0⟩ cs).2).1 = [cs.flatten] ∧
      (flushPendingInput
        (flushPendingInput (processChunks ⟨[], 0⟩ cs).2).2).1 = [] := by
  have hinv : BatcherInv (⟨[], 0⟩ : BatcherState) := by
    simp [BatcherInv]
  have hspec := processChunks_spec cs ⟨[], 0⟩ hinv (by simp [INPUT_BATCH_SAMPLES])
  obtain ⟨hinv', hlt, hall, hflat⟩ := hspec
  simp only [List.flatten_nil, List.nil_append] at hflat
  have hbnil : (processChunks ⟨[], 0⟩ cs).1 = [] := by
    cases hb : (processChunks ⟨[], 0⟩ cs).1 with
    | nil => rfl
    | cons b bs =>
      exfalso
      have hb640 : b.length = INPUT_BATCH_SAMPLES := by
        apply hall
        rw [hb]
        exact List.mem_cons_self b bs
      have := congrArg List.length hflat
      rw [hk, List.length_append, hb, List.flatten_cons, List.length_append,
        hb640] at this
      simp only [INPUT_BATCH_SAMPLES] at this hlt640
      omega
  have hLflat : (processChunks ⟨[], 0⟩ cs).2.pendingInputChunks.flatten =
      cs.flatten := by
    rw [← hflat, hbnil]
    simp
  have hps : (processChunks ⟨[], 0⟩ cs).2.pendingSamples = k := by
    rw [hinv', hLflat, hk]
  refine ⟨hbnil, ?_, ?_⟩
  · unfold flushPendingInput
    rw [if_neg (by omega : ¬(processChunks ⟨[], 0⟩ cs).2.pendingSamples = 0)]
    simp only
    congr 1
    rw [hLflat, hps, ← hk, List.take_left' rfl]
  · unfold flushPendingInput
    rw [if_neg (by omega : ¬(processChunks ⟨[], 0⟩ cs).2.pendingSamples = 0)]
    simp

/-- C9 witness: three leftover samples `[5, 6]`, `[7]` drain nothing, flush as
the single batch `[5, 6, 7]`, and a second flush emits nothing. -/
theorem C9_flush_partial_backlog_witness :
    ([[5, 6], [7]].flatten.length = 3 ∧ 0 < 3 ∧ 3 < INPUT_BATCH_SAMPLES) ∧
      ((processChunks ⟨[], 0⟩ [[(5 : Int), 6], [7]]).1 = [] ∧
        (flushPendingInput (processChunks ⟨[], 0⟩ [[(5 : Int), 6], [7]]).2).1 =
          [[[(5 : Int), 6], [7]].flatten] ∧
        (flushPendingInput
          (flushPendingInput (processChunks ⟨[], 0⟩ [[(5 : Int), 6], [7]]).2).2).1 = []) :=
  ⟨by decide, C9_flush_partial_backlog [[(5 : Int), 6], [7]] 3 (by decide)
    (by decide) (by decide)⟩

end AudioPipeline

namespace WireFormat

/-- The RFC 4648 base64 alphabet used by the platform `btoa`/`atob` pair. -/
def b64Alphabet : List Char :=
  "ABCDEFGHIJKLMNOPQRSTUVWXYZabcdefghijklmnopqrstuvwxyz0123456789+/".toList

/-- Character for a 6-bit group. -/
def b64Char (n : Nat) : Char := b64Alphabet.getD n '='

/-- Index of a base64 character in the alphabet. -/
def b64Index (c : Char) : Nat := b64Alphabet.indexOf c

/-- Modelled from the platform: `btoa` per RFC 4648, consuming the byte values
of the binary string three at a time and emitting four base64 characters, with
`=` padding for a trailing group of one or two bytes. -/
def btoaBytes : List Nat → List Char
  | [] => []
  | [b1] =>
    [b64Char (b1 / 4), b64Char (b1 % 4 * 16), '=', '=']
  | [b1, b2] =>
    [b64Char (b1 / 4), b64Char (b1 % 4 * 16 + b2 / 16), b64Char (b2 % 16 * 4), '=']
  | b1 :: b2 :: b3 :: rest =>
    b64Char (b1 / 4) :: b64Char (b1 % 4 * 16 + b2 / 16) ::
      b64Char (b2 % 16 * 4 + b3 / 64) :: b64Char (b3 % 64) :: btoaBytes rest

/-- Modelled from the platform: `atob` per RFC 4648, consuming four base64
characters at a time and emitting three byte values, fewer on a padded final
group. -/
def atobBytes : List Char → List Nat
  | c1 :: c2 :: c3 :: c4 :: rest =>
    let i1 := b64Index c1
    let i2 := b64Index c2
    if c3 = '=' then [i1 * 4 + i2 / 16]
    else
      let i3 := b64Index c3
      if c4 = '=' then [i1 * 4 + i2 / 16, i2 % 16 * 16 + i3 / 4]
      else
        let i4 := b64Index c4
        (i1 * 4 + i2 / 16) :: (i2 % 16 * 16 + i3 / 4) :: (i3 % 4 * 64 + i4) ::
          atobBytes rest
  | _ => []

/-- Embeds `encode(bytes)` from the utils module: the loop
`binary += String.fromCharCode(bytes[i])` builds a binary string whose char
codes are exactly the byte values, then applies `btoa`. -/
def encode (bytes : List Nat) : List Char := btoaBytes bytes

/-- Embeds `decode(base64)` from the utils module: applies `atob` and reads the
result back byte-by-byte with `charCodeAt`, which returns exactly the byte
values. -/
def decode (base64 : List Char) : List Nat := atobBytes base64

theorem b64Index_b64Char : ∀ n : Nat, n < 64 → b64Index (b64Char n) = n := by
  decide

theorem b64Char_ne_eq : ∀ n : Nat, n < 64 → b64Char n ≠ '=' := by
  decide

/-- C10: the base64 encoder and decoder used for the audio wire format are
mutually inverse: decoding an encoded byte array returns the original bytes. -/
theorem C10_base64_roundtrip (bytes : List Nat) (h : ∀ b ∈ bytes, b < 256) :
    decode (encode bytes) = bytes := by
  unfold decode encode
  induction bytes using btoaBytes.induct with
  | case1 => rfl
  | case2 b1 =>
    have hb1 : b1 < 256 := h b1 (by simp)
    rw [btoaBytes, atobBytes]
    rw [if_pos rfl]
    rw [b64Index_b64Char _ (by omega), b64Index_b64Char _ (by omega)]
    have : b1 / 4 * 4 + b1 % 4 * 16 / 16 = b1 := by omega
    rw [this]
  | case3 b1 b2 =>
    have hb1 : b1 < 256 := h b1 (by simp)
    have hb2 : b2 < 256 := h b2 (by simp)
    rw [btoaBytes, atobBytes]
    rw [if_neg (b64Char_ne_eq _ (by omega))]
    rw [if_pos rfl]
    rw [b64Index_b64Char _ (by omega), b64Index_b64Char _ (by omega),
      b64Index_b64Char _ (by omega)]
    have e1 : b1 / 4 * 4 + (b1 % 4 * 16 + b2 / 16) / 16 = b1 := by omega
    have e2 : (b1 % 4 * 16 + b2 / 16) % 16 * 16 + b2 % 16 * 4 / 4 = b2 := by
      omega
    rw [e1, e2]
  | case4 b1 b2 b3 rest ih =>
    have hb1 : b1 < 256 := h b1 (by simp)
    have hb2 : b2 < 256 := h b2 (by simp)
    have hb3 : b3 < 256 := h b3 (by simp)
    have hrest : ∀ b ∈ rest, b < 256 := by
      intro b hb
      exact h b (by simp [hb])
    rw [btoaBytes, atobBytes]
    rw [if_neg (b64Char_ne_eq _ (by omega))]
    rw [if_neg (b64Char_ne_eq _ (by omega))]
    rw [b64Index_b64Char _ (by omega), b64Index_b64Char _ (by omega),
      b64Index_b64Char _ (by omega), b64Index_b64Char _ (by omega)]
    have e1 : b1 / 4 * 4 + (b1 % 4 * 16 + b2 / 16) / 16 = b1 := by omega
    have e2 : (b1 % 4 * 16 + b2 / 16) % 16 * 16 + (b2 % 16 * 4 + b3 / 64) / 4 =
        b2 := by omega
    have e3 : (b2 % 16 * 4 + b3 / 64) % 4 * 64 + b3 % 64 = b3 := by omega
    simp only [e1, e2, e3, ih hrest]

/-- C10 witness: a concrete three-byte round trip covering low, high and mid
byte values. -/
theorem C10_base64_roundtrip_witness :
    (∀ b ∈ [0, 255, 77, 1, 2], b < 256) ∧
      decode (encode [0, 255, 77, 1, 2]) = [0, 255, 77, 1, 2] :=
  ⟨by decide, C10_base64_roundtrip [0, 255, 77, 1, 2] (by decide)⟩

end WireFormat

namespace Playback

/-- `START_PREBUFFER_SEC` (0.25 s) from `AudioService`. -/
def START_PREBUFFER_SEC : ℚ := 1/4

/-- `MAX_BUFFER_SEC` (0.35 s) from `AudioService`. -/
def MAX_BUFFER_SEC : ℚ := 7/20

/-- `SCHEDULE_MARGIN_SEC` (0.05 s) from `AudioService`. -/
def SCHEDULE_MARGIN_SEC : ℚ := 1/20

/-- The output side of `AudioService`: the set of live `AudioBufferSourceNode`s
(modelled by its size), the `nextStartTime` cursor, and the queue of pending
chunks.  A queued chunk is represented by its decoded duration in seconds,
which is the only attribute the scheduler uses. -/
structure OutState where
  outputSources : Nat
  nextStartTime : ℚ
  outputPendingBase64 : List ℚ
deriving Repr, DecidableEq

/-- Embeds `getBufferedOutputSeconds()`: `Math.max(0, nextStartTime - now)`. -/
def getBufferedOutputSeconds (st : OutState) (now : ℚ) : ℚ :=
  max 0 (st.nextStartTime - now)

/-- Embeds `hasActiveOutput()`. -/
def hasActiveOutput (st : OutState) : Bool :=
  decide (0 < st.outputSources) || decide (st.outputPendingBase64 ≠ [])

/-- Embeds `interruptPlayback()`: stop and drop every active source, reset the
cursor, drop the queue. -/
def interruptPlayback (st : OutState) : OutState :=
  { st with outputSources := 0, nextStartTime := 0, outputPendingBase64 := [] }

/-- Embeds the `while` loop of `scheduleOutputIfNeeded()`.  The loop body
suspends at `decodeAudioData`, so `AudioContext.currentTime` may differ between
iterations: `times` supplies the time observed by each iteration.  Returns the
`(startTime, duration)` of every source started, in order, together with the
final state. -/
def scheduleOutputIfNeeded (times : List ℚ) (st : OutState) :
    List (ℚ × ℚ) × OutState :=
  match times with
  | [] => ([], st)
  | now :: rest =>
    -- while (outputPendingBase64.length > 0 && getBufferedOutputSeconds() < MAX_BUFFER_SEC)
    match st.outputPendingBase64 with
    | [] => ([], st)
    | d :: queue =>
      if getBufferedOutputSeconds st now < MAX_BUFFER_SEC then
        let ns0 := if st.outputSources = 0 then now + START_PREBUFFER_SEC
          else st.nextStartTime
        let ns1 := max ns0 (now + SCHEDULE_MARGIN_SEC)
        let st' : OutState :=
          { outputSources := st.outputSources + 1
            nextStartTime := ns1 + d
            outputPendingBase64 := queue }
        let r := scheduleOutputIfNeeded rest st'
        ((ns1, d) :: r.1, r.2)
      else ([], st)

/-- Embeds `playAudioChunk(base64Data)`: push the chunk onto the pending queue
and run a scheduling pass. -/
def playAudioChunk (d : ℚ) (times : List ℚ) (st : OutState) :
    List (ℚ × ℚ) × OutState :=
  scheduleOutputIfNeeded times
    { st with outputPendingBase64 := st.outputPendingBase64 ++ [d] }

/-- C6 counterexample: a single 0.4 s chunk arriving at time 0 on an idle
pipeline leaves the buffered-ahead duration at 0.65 s, strictly above
`MAX_BUFFER_SEC`: the loop only checks the bound before scheduling a chunk, so
the bound can be overshot by up to one chunk duration. -/
theorem C6_counterexample :
    MAX_BUFFER_SEC <
      getBufferedOutputSeconds (playAudioChunk (2/5) [0] ⟨0, 0, []⟩).2 0 := by
  norm_num [playAudioChunk, scheduleOutputIfNeeded, getBufferedOutputSeconds,
    MAX_BUFFER_SEC, START_PREBUFFER_SEC, SCHEDULE_MARGIN_SEC]

/-- C6 (amended): a chunk is scheduled only when the buffered-ahead duration is
still below `MAX_BUFFER_SEC`, so with every queued duration in `[0, dmax]` and
time moving forward, the buffered-ahead duration after a scheduling pass never
exceeds `max` of its initial value and `MAX_BUFFER_SEC + dmax`. -/
theorem C6_buffer_bounded (times : List ℚ) (st : OutState) (dmax : ℚ)
    (hmono : times.Chain' (· ≤ ·))
    (hd : ∀ d ∈ st.outputPendingBase64, 0 ≤ d ∧ d ≤ dmax)
    (t : ℚ) (ht : ∀ u ∈ times, u ≤ t) :
    getBufferedOutputSeconds (scheduleOutputIfNeeded times st).2 t ≤
      max (getBufferedOutputSeconds st t) (MAX_BUFFER_SEC + dmax) := by
  induction times generalizing st with
  | nil => exact le_max_left _ _
  | cons now rest ih =>
    rw [scheduleOutputIfNeeded]
    cases hq : st.outputPendingBase64 with
    | nil => exact le_max_left _ _
    | cons d queue =>
      dsimp only
      by_cases hcond : getBufferedOutputSeconds st now < MAX_BUFFER_SEC
      · rw [if_pos hcond]
        dsimp only
        have hdd : 0 ≤ d ∧ d ≤ dmax := hd d (by rw [hq]; exact List.mem_cons_self d queue)
        have hdmax : 0 ≤ dmax := le_trans hdd.1 hdd.2
        have hnow : now ≤ t := ht now (List.mem_cons_self now rest)
        set ns0 : ℚ := if st.outputSources = 0 then now + START_PREBUFFER_SEC
          else st.nextStartTime with hns0
        set ns1 : ℚ := max ns0 (now + SCHEDULE_MARGIN_SEC) with hns1
        have hbound : ns1 + d - now ≤ MAX_BUFFER_SEC + dmax := by
          have h1 : ns0 - now ≤ MAX_BUFFER_SEC := by
            rw [hns0]
            split
            · simp only [START_PREBUFFER_SEC, MAX_BUFFER_SEC]
              linarith
            · have := (le_max_right 0 (st.nextStartTime - now)).trans_lt hcond
              exact le_of_lt this
          have h2 : ns1 - now ≤ MAX_BUFFER_SEC := by
            rw [hns1]
            rcases max_cases ns0 (now + SCHEDULE_MARGIN_SEC) with ⟨hm, _⟩ | ⟨hm, _⟩
            · rw [hm]; exact h1
            · rw [hm]
              simp only [SCHEDULE_MARGIN_SEC, MAX_BUFFER_SEC]
              linarith
          linarith [hdd.2]
        have hst' : getBufferedOutputSeconds
            ⟨st.outputSources + 1, ns1 + d, queue⟩ t ≤ MAX_BUFFER_SEC + dmax := by
          unfold getBufferedOutputSeconds
          simp only
          rcases max_cases (0 : ℚ) (ns1 + d - t) with ⟨hm, _⟩ | ⟨hm, _⟩
          · rw [hm]
            have : (0 : ℚ) ≤ MAX_BUFFER_SEC := by
              simp only [MAX_BUFFER_SEC]; norm_num
            linarith
          · rw [hm]
            linarith
        have hmono' : rest.Chain' (· ≤ ·) := hmono.tail
        have hd' : ∀ x ∈ (⟨st.outputSources + 1, ns1 + d, queue⟩ :
            OutState).outputPendingBase64, 0 ≤ x ∧ x ≤ dmax := by
          intro x hx
          exact hd x (by rw [hq]; exact List.mem_cons_of_mem d hx)
        have ht' : ∀ u ∈ rest, u ≤ t := fun u hu => ht u (List.mem_cons_of_mem now hu)
        have := ih ⟨st.outputSources + 1, ns1 + d, queue⟩ hmono' hd' ht'
        calc getBufferedOutputSeconds
              (scheduleOutputIfNeeded rest ⟨st.outputSources + 1, ns1 + d, queue⟩).2 t
            ≤ max (getBufferedOutputSeconds ⟨st.outputSources + 1, ns1 + d, queue⟩ t)
              (MAX_BUFFER_SEC + dmax) := this
          _ ≤ MAX_BUFFER_SEC + dmax := max_le hst' (le_refl _)
          _ ≤ max (getBufferedOutputSeconds st t) (MAX_BUFFER_SEC + dmax) :=
              le_max_right _ _
      · rw [if_neg hcond]
        exact le_max_left _ _

/-- C6 witness: the spec scenario — ten 100 ms chunks queued on an idle
pipeline, scheduled in one pass at a single instant — stays within the bound;
evaluating the pass shows exactly one chunk scheduled and buffered-ahead
peaking at exactly 0.35 s. -/
theorem C6_buffer_bounded_witness :
    ([(0 : ℚ)].Chain' (· ≤ ·) ∧
      (∀ d ∈ (⟨0, 0, List.replicate 10 (1/10)⟩ : OutState).outputPendingBase64,
        0 ≤ d ∧ d ≤ 1/10) ∧
      (∀ u ∈ [(0 : ℚ)], u ≤ 0)) ∧
      getBufferedOutputSeconds
          (scheduleOutputIfNeeded [0] ⟨0, 0, List.replicate 10 (1/10)⟩).2 0 ≤
        max (getBufferedOutputSeconds ⟨0, 0, List.replicate 10 (1/10)⟩ 0)
          (MAX_BUFFER_SEC + 1/10) :=
  ⟨⟨by simp, by intro d hd; rw [List.eq_of_mem_replicate hd]; norm_num, by simp⟩,
    C6_buffer_bounded [0] ⟨0, 0, List.replicate 10 (1/10)⟩ (1/10)
      (by simp)
      (by intro d hd; rw [List.eq_of_mem_replicate hd]; norm_num) 0 (by simp)⟩

/-- C7: every source started by a scheduling pass starts no earlier than the
iteration's `now + SCHEDULE_MARGIN_SEC` (the prebuffer branch starts even
later), and `getBufferedOutputSeconds` is clamped at zero, hence never
negative. -/
theorem C7_margin_and_nonneg :
    (∀ (times : List ℚ) (st : OutState) (p : ℚ × ℚ × ℚ),
        p ∈ times.zip (scheduleOutputIfNeeded times st).1 →
        p.1 + SCHEDULE_MARGIN_SEC ≤ p.2.1) ∧
      ∀ (st : OutState) (now : ℚ), 0 ≤ getBufferedOutputSeconds st now := by
  constructor
  · intro times
    induction times with
    | nil =>
      intro st p hp
      simp [scheduleOutputIfNeeded] at hp
    | cons now rest ih =>
      intro st p hp
      rw [scheduleOutputIfNeeded] at hp
      cases hq : st.outputPendingBase64 with
      | nil =>
        rw [hq] at hp
        simp at hp
      | cons d queue =>
        rw [hq] at hp
        dsimp only at hp
        by_cases hcond : getBufferedOutputSeconds st now < MAX_BUFFER_SEC
        · rw [if_pos hcond] at hp
          dsimp only at hp
          simp only [List.zip_cons_cons, List.mem_cons] at hp
          rcases hp with hp | hp
          · rw [hp]
            exact le_max_right _ _
          · exact ih _ p hp
        · rw [if_neg hcond] at hp
          simp at hp
  · intro st now
    exact le_max_left _ _

/-- C7 witness: the first chunk scheduled from idle at time 0 starts at 0.25 s,
which is at least `0 + SCHEDULE_MARGIN_SEC`; and a concrete buffered-ahead
reading is nonnegative. -/
theorem C7_margin_witness :
    (0 : ℚ) + SCHEDULE_MARGIN_SEC ≤ 1/4 ∧
      0 ≤ getBufferedOutputSeconds ⟨2, -3, [1/10]⟩ 5 :=
  ⟨C7_margin_and_nonneg.1 [0] ⟨0, 0, [1/10]⟩ (0, (1/4, 1/10)) (by
      norm_num [scheduleOutputIfNeeded, getBufferedOutputSeconds, MAX_BUFFER_SEC,
        START_PREBUFFER_SEC, SCHEDULE_MARGIN_SEC, max_def]),
    C7_margin_and_nonneg.2 ⟨2, -3, [1/10]⟩ 5⟩

/-- C8: immediately after `interruptPlayback()` there is no active output, the
buffered-ahead duration reads 0 (the `AudioContext` clock is nonnegative), the
pending queue is empty, the cursor is reset to 0 and the active-source set is
empty. -/
theorem C8_interrupt_clears (st : OutState) (now : ℚ) (h : 0 ≤ now) :
    hasActiveOutput (interruptPlayback st) = false ∧
      getBufferedOutputSeconds (interruptPlayback st) now = 0 ∧
      (interruptPlayback st).outputPendingBase64 = [] ∧
      (interruptPlayback st).nextStartTime = 0 ∧
      (interruptPlayback st).outputSources = 0 := by
  refine ⟨rfl, ?_, rfl, rfl, rfl⟩
  unfold getBufferedOutputSeconds interruptPlayback
  simp only [zero_sub]
  rw [max_eq_left (by linarith)]

/-- C8 witness: interrupting a busy state (three sources, cursor at 5 s, one
queued chunk) at time 2 clears everything. -/
theorem C8_interrupt_clears_witness :
    (0 : ℚ) ≤ 2 ∧
      (hasActiveOutput (interruptPlayback ⟨3, 5, [1/2]⟩) = false ∧
        getBufferedOutputSeconds (interruptPlayback ⟨3, 5, [1/2]⟩) 2 = 0 ∧
        (interruptPlayback (⟨3, 5, [1/2]⟩ : OutState)).outputPendingBase64 = [] ∧
        (interruptPlayback (⟨3, 5, [1/2]⟩ : OutState)).nextStartTime = 0 ∧
        (interruptPlayback (⟨3, 5, [1/2]⟩ : OutState)).outputSources = 0) :=
  ⟨by norm_num, C8_interrupt_clears ⟨3, 5, [1/2]⟩ 2 (by norm_num)⟩

end Playback

namespace SessionMachine

/-- Substring test on char lists (used to model JS regex alternatives that are
plain literals). -/
def containsSub (needle hay : List Char) : Bool :=
  hay.tails.any (fun t => needle.isPrefixOf t)

/-- Lower-cased character list of a string, modelling a case-insensitive (`/i`)
regex match. -/
def toLowerList (msg : String) : List Char :=
  msg.toList.map Char.toLower

/-- Consume a literal at the head of the input. -/
def litPrefix (w : String) (l : List Char) : Option (List Char) :=
  if w.toList.isPrefixOf l then some (l.drop w.toList.length) else none

/-- Consume one-or-more whitespace characters (regex `\s+`).  The following
literal in every pattern begins with a non-whitespace character, so consuming
the maximal run is equivalent to the backtracking semantics. -/
def dropWs1 (l : List Char) : Option (List Char) :=
  match l with
  | [] => none
  | c :: rest =>
    if c.isWhitespace then some (rest.dropWhile Char.isWhitespace) else none

/-- Matches `w1\s+w2.*w3` anywhere in the (lower-cased) input. -/
def seqPat (w1 w2 w3 : String) (l : List Char) : Bool :=
  l.tails.any fun t =>
    match litPrefix w1 t with
    | none => false
    | some r1 =>
      match dropWs1 r1 with
      | none => false
      | some r2 =>
        match litPrefix w2 r2 with
        | none => false
        | some r3 => containsSub w3.toList r3

/-- Embeds `isQuotaError(msg)`:
`/quota|billing|exceeded|insufficient|payment|429/i.test(msg || '')`. -/
def isQuotaError (msg : String) : Bool :=
  let l := toLowerList msg
  containsSub "quota".toList l || containsSub "billing".toList l ||
    containsSub "exceeded".toList l || containsSub "insufficient".toList l ||
    containsSub "payment".toList l || containsSub "429".toList l

/-- Embeds `isUnsupportedLiveError(msg)`:
`/not\s+found.*v1beta|not\s+supported.*bidiGenerateContent|ListMod/i.test(msg || '')`. -/
def isUnsupportedLiveError (msg : String) : Bool :=
  let l := toLowerList msg
  seqPat "not" "found" "v1beta" l ||
    seqPat "not" "supported" "bidigeneratecontent" l ||
    containsSub "listmod".toList l

/-- The session/status state of the assistant view.  Timers are reified:
`reconnectTimer` stores the generation captured by the pending reconnect
closure and its delay; `errorClearTasks` records the messages captured by the
pending 5 s `updateError` auto-clear timeouts (each firing is the explicit
transition `fireErrorClear`).  Timeline entries keep message and type; the
wall-clock timestamp prefix is dropped. -/
structure SessionState where
  status : String
  error : String
  timeline : List (String × String)
  isConnecting : Bool
  connecting : Bool
  retryCount : Nat
  isRecording : Bool
  sessionOpen : Bool
  reconnectAttempts : Nat
  reconnectTimer : Option (Nat × ℚ)
  stopAutoReconnect : Bool
  currentModel : Option String
  sessionGenCounter : Nat
  currentSessionGen : Nat
  models : List String
  unsupportedModels : List String
  lastModelStorage : Option String
  session : Option (Nat × String)
  systemInstruction : String
  lastLoggedSources : String
  searchResults : List String
  lastInterruptAt : ℚ
  errorClearTasks : List String
  analysesEmpty : Bool
  audio : Playback.OutState
deriving Repr, DecidableEq

/-- `MAX_EVENTS` in `logEvent`. -/
def MAX_EVENTS : Nat := 300

/-- Embeds `logEvent(message, type)`: prepend and truncate to `MAX_EVENTS`. -/
def logEvent (st : SessionState) (message ty : String) : SessionState :=
  { st with timeline := ((message, ty) :: st.timeline).take MAX_EVENTS }

/-- Embeds `updateStatus(msg)`. -/
def updateStatus (st : SessionState) (msg : String) : SessionState :=
  { st with status := msg, error := "" }

/-- Embeds `updateError(msg)`: set the error, clear the status, log, and
schedule the 5 s auto-clear timeout capturing `msg`. -/
def updateError (st : SessionState) (msg : String) : SessionState :=
  let st := { st with error := msg, status := "" }
  let st := logEvent st msg "error"
  { st with errorClearTasks := st.errorClearTasks ++ [msg] }

/-- The body of the `setTimeout` scheduled by `updateError(msg)`: clear the
error only if it was not superseded meanwhile. -/
def fireErrorClear (st : SessionState) (msg : String) : SessionState :=
  if st.error = msg then { st with error := "" } else st

/-- Embeds `handleConnectionIssue(context)`. -/
def handleConnectionIssue (st : SessionState) (context : String) : SessionState :=
  if isQuotaError context then
    let st := { st with stopAutoReconnect := true }
    let st := updateError st
      "Cota do modelo excedida. Verifique seu plano/billing e tente novamente."
    logEvent st
      "Cota excedida: reconexão pausada. Ajuste o billing e clique em Reiniciar."
      "error"
  else st

/-- Embeds `handleUnsupportedModel(model, reason)`: mark the model unsupported,
drop it from the roster, forget it as the persisted last-successful model, and
log. -/
def handleUnsupportedModel (st : SessionState) (model reason : String) :
    SessionState :=
  let st := { st with
    unsupportedModels :=
      if model ∈ st.unsupportedModels then st.unsupportedModels
      else st.unsupportedModels ++ [model]
    models := st.models.filter (· ≠ model) }
  let st :=
    if st.lastModelStorage = some model then { st with lastModelStorage := none }
    else st
  logEvent st
    ("Modelo não compatível com Live nesta API: " ++ model ++
      ". Alternando para o próximo. (" ++ reason ++ ")") "error"

/-- Embeds `stopRecording()`. -/
def stopRecording (st : SessionState) : SessionState :=
  if !st.isRecording then st
  else
    let st := updateStatus st "Parando gravação..."
    let st := { st with isRecording := false }
    let st := logEvent st "Gravação parada." "record"
    updateStatus st "Gravação parada. Clique para começar de novo."

/-- Embeds `scheduleReconnect(gen, reason)`.  `jitter` stands for the value of
`Math.random() * 200` drawn by this call; the timer stores the generation the
closure captured and the computed delay (the logged text abbreviates the
source's rounded-delay interpolation). -/
def scheduleReconnect (gen : Nat) (reason : String) (jitter : ℚ)
    (st : SessionState) : SessionState :=
  if gen ≠ st.currentSessionGen then st
  else if st.stopAutoReconnect then st
  else if st.reconnectTimer.isSome then st
  else if st.isConnecting then st
  else if (st.models.filter (· ∉ st.unsupportedModels)).length = 0 then
    let st := logEvent st
      "Nenhum modelo Live compatível disponível nesta conta/região." "error"
    updateError st
      "Nenhum modelo Live compatível disponível. Ajuste sua lista de modelos ou verifique a região/billing."
  else
    let attempt := st.reconnectAttempts + 1
    let st := { st with reconnectAttempts := attempt, retryCount := attempt }
    if attempt > 5 then
      logEvent st "Reconexão cancelada após várias tentativas." "error"
    else
      let delay : ℚ := min (500 * 2 ^ (attempt - 1) + jitter) 5000
      let st := logEvent st
        ("Tentando reconectar (tentativa " ++ toString attempt ++ ")") "info"
      { st with reconnectTimer := some (gen, delay) }

/-- Embeds the `for (const model of this.models)` loop of `initSession`.
`outcomes m = none` means `client.live.connect` resolved for model `m`;
`outcomes m = some msg` means it threw with message `msg` (the loop then moves
to the next candidate, remembering `lastError`).  After exhaustion the source's
post-loop failure block runs. -/
def connectLoop (outcomes : String → Option String) (jitter : ℚ)
    (generation : Nat) : List String → Option String → SessionState → SessionState
  | [], lastError, st =>
    match lastError with
    | none => st
    | some msg =>
      if generation = st.currentSessionGen then
        let st := updateError st ("Falha ao conectar ao assistente: " ++ msg)
        let st := { st with isConnecting := false, connecting := false }
        let st :=
          if isUnsupportedLiveError msg then
            match st.currentModel with
            | some cm => handleUnsupportedModel st cm msg
            | none => st
          else st
        let st := handleConnectionIssue st msg
        if !st.stopAutoReconnect then scheduleReconnect generation msg jitter st
        else st
      else st
  | m :: rest, _lastError, st =>
    let st := logEvent st ("Tentando conectar com o modelo: " ++ m) "info"
    match outcomes m with
    | none =>
      let st := { st with session := some (generation, m), error := "" }
      logEvent st "Compressão da janela de contexto habilitada." "info"
    | some errMsg =>
      let st := logEvent st
        ("Falha ao conectar com o modelo " ++ m ++ ": " ++ errMsg) "error"
      connectLoop outcomes jitter generation rest (some errMsg) st

/-- Embeds `initSession(newSystemInstruction?)` up to and including the model
loop.  `defaultInstr` stands for the composite instruction generated when no
explicit instruction is passed; session close and audio teardown are external
effects. -/
def initSession (outcomes : String → Option String) (jitter : ℚ)
    (defaultInstr : String) (newSystemInstruction : Option String)
    (st : SessionState) : SessionState :=
  let generation := st.sessionGenCounter + 1
  let st := { st with
      sessionGenCounter := generation
      currentSessionGen := generation
      reconnectTimer := none
      reconnectAttempts := 0
      isConnecting := true
      stopAutoReconnect := false }
  let st := if st.isRecording then stopRecording st else st
  let st := if st.session.isSome then { st with sessionOpen := false } else st
  let st := { st with systemInstruction := newSystemInstruction.getD defaultInstr }
  let st :=
    if newSystemInstruction.isNone then
      logEvent st "Sessão reiniciada para o modo geral." "info"
    else st
  let st :=
    if st.analysesEmpty then
      logEvent st "Busca do Google ativada para respostas factuais." "info"
    else st
  let st := updateStatus st "Conectando ao assistente..."
  connectLoop outcomes jitter generation st.models none st

/-- Embeds the `onopen` callback registered for generation `gen` and `model`. -/
def onopen (gen : Nat) (model : String) (st : SessionState) : SessionState :=
  if gen ≠ st.currentSessionGen then st
  else
    let st := logEvent st ("Conexão estabelecida com " ++ model ++ ".") "connect"
    let st := if st.analysesEmpty then updateStatus st "Conectado" else st
    { st with
      isConnecting := false
      connecting := false
      reconnectAttempts := 0
      currentModel := some model
      sessionOpen := true
      lastModelStorage := some model }

/-- The parts of a `LiveServerMessage` the `onmessage` handler inspects: the
inline audio payload (by its decoded duration), the grounding chunk list (by
its web-source URIs), and the `interrupted` flag. -/
structure ServerMessage where
  audioDuration : Option ℚ
  groundingPresent : Bool
  sources : List String
  interrupted : Bool

/-- Embeds the `onmessage` callback: route audio to the playback scheduler,
deduplicate grounding sources by their sorted joined URIs, and debounce the
`interrupted` barge-in signal by 300 ms (`nowMs` is `Date.now()`; `schedTimes`
feeds the triggered scheduling pass). -/
def onmessage (gen : Nat) (msg : ServerMessage) (nowMs : ℚ)
    (schedTimes : List ℚ) (st : SessionState) : SessionState :=
  if gen ≠ st.currentSessionGen then st
  else
    let st :=
      match msg.audioDuration with
      | some d =>
        { st with audio := (Playback.playAudioChunk d schedTimes st.audio).2 }
      | none => st
    let st :=
      if msg.groundingPresent then
        if msg.sources ≠ [] then
          let st := { st with searchResults := msg.sources }
          let key := String.intercalate "," (msg.sources.mergeSort (· ≤ ·))
          if key ≠ "" ∧ key ≠ st.lastLoggedSources then
            let st := { st with lastLoggedSources := key }
            logEvent st
              ("O assistente usou " ++ toString msg.sources.length ++
                " fonte(s) para a resposta.") "info"
          else st
        else st
      else { st with lastLoggedSources := "" }
    if msg.interrupted ∧ st.isRecording then
      if nowMs - st.lastInterruptAt > 300 then
        { st with
          audio := Playback.interruptPlayback st.audio
          lastInterruptAt := nowMs }
      else st
    else st

/-- Embeds the `onerror` callback registered for generation `gen` and `model`. -/
def onerror (gen : Nat) (model : String) (message : String) (jitter : ℚ)
    (st : SessionState) : SessionState :=
  if gen ≠ st.currentSessionGen then st
  else
    let st := updateError st message
    let st := logEvent st ("Erro de conexão: " ++ message) "error"
    let st := { st with isConnecting := false, connecting := false }
    let st :=
      if isUnsupportedLiveError message then handleUnsupportedModel st model message
      else st
    let st := handleConnectionIssue st message
    if !st.stopAutoReconnect then scheduleReconnect gen message jitter st else st

/-- Embeds the `onclose` callback registered for generation `gen` and `model`
(`reason` may be empty; the source substitutes `'unsupported'` / `'closed'` for
a falsy reason). -/
def onclose (gen : Nat) (model : String) (reason : String) (jitter : ℚ)
    (st : SessionState) : SessionState :=
  if gen ≠ st.currentSessionGen then st
  else
    let st := updateStatus st ("Conexão fechada: " ++ reason)
    let st := logEvent st ("Conexão fechada: " ++ reason) "disconnect"
    let st := { st with
      isConnecting := false
      connecting := false
      sessionOpen := false }
    let st :=
      if st.isRecording then
        let st := { st with isRecording := false }
        let st := updateStatus st "Gravação interrompida. A conexão foi fechada."
        logEvent st "Gravação interrompida devido à desconexão." "record"
      else st
    let st :=
      if isUnsupportedLiveError reason then
        handleUnsupportedModel st model (if reason = "" then "unsupported" else reason)
      else st
    let st := handleConnectionIssue st (if reason = "" then "closed" else reason)
    if !st.stopAutoReconnect then
      scheduleReconnect gen (if reason = "" then "closed" else reason) jitter st
    else st

/-- Embeds the body of the `setTimeout` closure created by `scheduleReconnect`:
on firing with the captured generation still current, clear the timer, mark
connecting, filter unsupported models and re-run `initSession` with the current
system instruction. -/
def reconnectTimerFire (gen : Nat) (outcomes : String → Option String)
    (jitter : ℚ) (defaultInstr : String) (st : SessionState) : SessionState :=
  if gen ≠ st.currentSessionGen then st
  else
    let st := { st with
      reconnectTimer := none
      isConnecting := true
      connecting := true }
    let st := { st with models := st.models.filter (· ∉ st.unsupportedModels) }
    initSession outcomes jitter defaultInstr (some st.systemInstruction) st

/-- The models a run of `initSession`'s connect loop would attempt, in order:
every candidate up to and including the first that connects. -/
def attemptedModels (outcomes : String → Option String) :
    List String → List String
  | [] => []
  | m :: rest =>
    m :: (if (outcomes m).isNone then [] else attemptedModels outcomes rest)

/-- The assistant-view state right after construction with roster `models`
(before the constructor's own `initSession()` call). -/
def initialState (models : List String) : SessionState :=
  { status := "", error := "", timeline := [], isConnecting := false,
    connecting := false, retryCount := 0, isRecording := false,
    sessionOpen := false, reconnectAttempts := 0, reconnectTimer := none,
    stopAutoReconnect := false, currentModel := none, sessionGenCounter := 0,
    currentSessionGen := 0, models := models, unsupportedModels := [],
    lastModelStorage := none, session := none, systemInstruction := "",
    lastLoggedSources := "", searchResults := [], lastInterruptAt := 0,
    errorClearTasks := [], analysesEmpty := true, audio := ⟨0, 0, []⟩ }

/-- One event-loop turn of the session machine: any callback, timer firing or
`initSession` entry point may run next. -/
inductive SessionStep : SessionState → SessionState → Prop
  | init_step (outcomes : String → Option String) (jitter : ℚ)
      (defaultInstr : String) (instr : Option String) (st : SessionState) :
      SessionStep st (initSession outcomes jitter defaultInstr instr st)
  | onopen_step (gen : Nat) (model : String) (st : SessionState) :
      SessionStep st (onopen gen model st)
  | onmessage_step (gen : Nat) (msg : ServerMessage) (nowMs : ℚ)
      (times : List ℚ) (st : SessionState) :
      SessionStep st (onmessage gen msg nowMs times st)
  | onerror_step (gen : Nat) (model message : String) (jitter : ℚ)
      (st : SessionState) : SessionStep st (onerror gen model message jitter st)
  | onclose_step (gen : Nat) (model reason : String) (jitter : ℚ)
      (st : SessionState) : SessionStep st (onclose gen model reason jitter st)
  | timer_step (gen : Nat) (outcomes : String → Option String) (jitter : ℚ)
      (defaultInstr : String) (st : SessionState) :
      SessionStep st (reconnectTimerFire gen outcomes jitter defaultInstr st)
  | clear_step (msg : String) (st : SessionState) :
      SessionStep st (fireErrorClear st msg)

end SessionMachine

namespace SessionMachine

/-- C1: a callback or reconnect-timer firing tagged with a generation that is
no longer current leaves the whole session/status state (hence status, error,
`isConnecting`, `sessionOpen`, `reconnectAttempts`, `currentModel` and any
scheduled reconnect timer) unchanged. -/
theorem C1_stale_generation_noop (gen : Nat) (st : SessionState)
    (h : gen ≠ st.currentSessionGen) :
    (∀ model, onopen gen model st = st) ∧
      (∀ msg nowMs times, onmessage gen msg nowMs times st = st) ∧
      (∀ model message jitter, onerror gen model message jitter st = st) ∧
      (∀ model reason jitter, onclose gen model reason jitter st = st) ∧
      (∀ outcomes jitter defaultInstr,
        reconnectTimerFire gen outcomes jitter defaultInstr st = st) := by
  refine ⟨?_, ?_, ?_, ?_, ?_⟩ <;> intros <;>
    simp only [onopen, onmessage, onerror, onclose, reconnectTimerFire,
      if_pos h]

/-- C1 witness: generation 5 against a state whose current generation is 0. -/
theorem C1_stale_generation_noop_witness :
    (5 ≠ (initialState ["A"]).currentSessionGen) ∧
      onopen 5 "m" (initialState ["A"]) = initialState ["A"] ∧
      onerror 5 "m" "boom" 7 (initialState ["A"]) = initialState ["A"] ∧
      reconnectTimerFire 5 (fun _ => none) 7 "i" (initialState ["A"]) =
        initialState ["A"] :=
  ⟨by decide,
    (C1_stale_generation_noop 5 (initialState ["A"]) (by decide)).1 "m",
    (C1_stale_generation_noop 5 (initialState ["A"]) (by decide)).2.2.1 "m" "boom" 7,
    (C1_stale_generation_noop 5 (initialState ["A"]) (by decide)).2.2.2.2
      (fun _ => none) 7 "i"⟩

/-- A state ready for a reconnect attempt with 4 earlier attempts recorded. -/
def cex2st : SessionState :=
  { initialState ["B"] with
    currentSessionGen := 1
    sessionGenCounter := 1
    reconnectAttempts := 4 }

/-- C2 counterexample: at attempt `n = 5` with jitter `j = 100`, the computed
delay is `min(500·2⁴ + 100, 5000) = 5000`, so `delay − j = 4900`, which is not
`min(500·2⁴, 5000) = 5000`: the jitter is added inside the cap, so the claimed
identity fails once the cap binds. -/
theorem C2_backoff_counterexample :
    (scheduleReconnect 1 "closed" 100 cex2st).reconnectTimer = some (1, 5000) ∧
      ¬((5000 : ℚ) - 100 = min (500 * 2 ^ (5 - 1) : ℚ) 5000) := by
  constructor
  · have h1 : (scheduleReconnect 1 "closed" 100 cex2st).reconnectTimer =
        some (1, min (500 * 2 ^ (5 - 1) + 100 : ℚ) 5000) := rfl
    rw [h1]
    norm_num
  · norm_num

/-- C2 (amended): when the guards pass, attempt `n = attempts+1 ≤ 5` stores a
timer with delay `min(500·2^(n−1) + j, 5000)` — so for `n ≤ 4` (where the cap
cannot bind for `0 ≤ j < 200`) the delay minus jitter equals
`min(500·2^(n−1), 5000)` — and from attempt 6 on (`attempts ≥ 5`) no timer is
ever created. -/
theorem C2_backoff_amended (gen : Nat) (reason : String) (j : ℚ)
    (st : SessionState) (hgen : gen = st.currentSessionGen)
    (hstop : st.stopAutoReconnect = false) (htimer : st.reconnectTimer = none)
    (hconn : st.isConnecting = false)
    (hmodels : (st.models.filter (· ∉ st.unsupportedModels)).length ≠ 0) :
    (st.reconnectAttempts + 1 ≤ 5 →
      (scheduleReconnect gen reason j st).reconnectTimer =
        some (gen, min (500 * 2 ^ st.reconnectAttempts + j) 5000) ∧
      (scheduleReconnect gen reason j st).reconnectAttempts =
        st.reconnectAttempts + 1) ∧
    (st.reconnectAttempts + 1 ≤ 4 → 0 ≤ j → j < 200 →
      (scheduleReconnect gen reason j st).reconnectTimer =
        some (gen, min (500 * 2 ^ st.reconnectAttempts : ℚ) 5000 + j)) ∧
    (5 ≤ st.reconnectAttempts →
      (scheduleReconnect gen reason j st).reconnectTimer = none) := by
  have g1 : ¬(gen ≠ st.currentSessionGen) := by simp [hgen]
  have hform : scheduleReconnect gen reason j st =
      (if st.reconnectAttempts + 1 > 5 then
        logEvent
          { st with
            reconnectAttempts := st.reconnectAttempts + 1
            retryCount := st.reconnectAttempts + 1 }
          "Reconexão cancelada após várias tentativas." "error"
      else
        { logEvent
            { st with
              reconnectAttempts := st.reconnectAttempts + 1
              retryCount := st.reconnectAttempts + 1 }
            ("Tentando reconectar (tentativa " ++
              toString (st.reconnectAttempts + 1) ++ ")") "info" with
          reconnectTimer :=
            some (gen,
              min (500 * 2 ^ (st.reconnectAttempts + 1 - 1) + j) 5000) }) := by
    unfold scheduleReconnect
    rw [if_neg g1, if_neg (by simp [hstop]), if_neg (by simp [htimer]),
      if_neg (by simp [hconn]), if_neg hmodels]
  refine ⟨?_, ?_, ?_⟩
  · intro hle
    rw [hform, if_neg (by omega)]
    simp [logEvent]
  · intro hle hj0 hj200
    rw [hform, if_neg (by omega)]
    simp only [logEvent]
    have hexp : (2 : ℚ) ^ st.reconnectAttempts ≤ 2 ^ 3 := by
      apply pow_le_pow_right (by norm_num)
      omega
    have hsmall : 500 * (2 : ℚ) ^ st.reconnectAttempts + j ≤ 5000 := by
      norm_num at hexp
      linarith
    have hsmall2 : 500 * (2 : ℚ) ^ st.reconnectAttempts ≤ 5000 := by
      norm_num at hexp
      linarith
    rw [Nat.add_sub_cancel, min_eq_left hsmall, min_eq_left hsmall2]
  · intro hge
    rw [hform, if_pos (by omega)]
    simp [logEvent, htimer]

/-- A guard-passing state with 2 recorded attempts. -/
def cex2w : SessionState :=
  { initialState ["B"] with
    currentSessionGen := 1
    sessionGenCounter := 1
    reconnectAttempts := 2 }

/-- A guard-passing state already at the attempt cap. -/
def cex2cap : SessionState :=
  { initialState ["B"] with
    currentSessionGen := 1
    sessionGenCounter := 1
    reconnectAttempts := 5 }

/-- C2 witness: attempt 3 (`attempts = 2`) with jitter 50 stores delay
`min(2000 + 50, 5000)`, and a state with 5 recorded attempts stores no timer. -/
theorem C2_backoff_amended_witness :
    ((1 : Nat) = cex2w.currentSessionGen ∧ cex2w.stopAutoReconnect = false ∧
      cex2w.reconnectTimer = none ∧ cex2w.isConnecting = false ∧
      (cex2w.models.filter (· ∉ cex2w.unsupportedModels)).length ≠ 0) ∧
      ((scheduleReconnect 1 "closed" 50 cex2w).reconnectTimer =
          some (1, min (500 * 2 ^ cex2w.reconnectAttempts + 50) 5000) ∧
        (scheduleReconnect 1 "closed" 50 cex2w).reconnectAttempts =
          cex2w.reconnectAttempts + 1) ∧
      (scheduleReconnect 1 "closed" 50 cex2cap).reconnectTimer = none :=
  ⟨⟨by decide, by decide, by decide, by decide, by decide⟩,
    (C2_backoff_amended 1 "closed" 50 cex2w (by decide) (by decide) (by decide)
      (by decide) (by decide)).1 (by decide),
    (C2_backoff_amended 1 "closed" 50 cex2cap (by decide) (by decide)
      (by decide) (by decide) (by decide)).2.2 (by decide)⟩

end SessionMachine

namespace SessionMachine

/-- An open, recording session on generation 1. -/
def recState : SessionState :=
  { initialState ["A", "B"] with
    currentSessionGen := 1
    sessionGenCounter := 1
    isRecording := true
    sessionOpen := true
    session := some (1, "A")
    currentModel := some "A" }

/-- The error text `handleConnectionIssue` displays for quota failures. -/
def quotaDisplayMsg : String :=
  "Cota do modelo excedida. Verifique seu plano/billing e tente novamente."

/-- C3 counterexample: a session **error** event carrying quota text while
recording leaves `isRecording = true` (only the close handler stops the
recording), and the displayed quota error is wiped by the 5-second
`updateError` auto-clear timeout, so it does not persist until restart.  The
claim's no-reconnect-timer and `isConnecting = false` parts do hold here. -/
theorem C3_quota_counterexample :
    isQuotaError "Quota exceeded for this billing account" = true ∧
      recState.isRecording = true ∧
      (onerror 1 "A" "Quota exceeded for this billing account" 0
        recState).isRecording = true ∧
      (onerror 1 "A" "Quota exceeded for this billing account" 0
        recState).stopAutoReconnect = true ∧
      (onerror 1 "A" "Quota exceeded for this billing account" 0
        recState).reconnectTimer = none ∧
      (onerror 1 "A" "Quota exceeded for this billing account" 0
        recState).error = quotaDisplayMsg ∧
      (fireErrorClear
        (onerror 1 "A" "Quota exceeded for this billing account" 0 recState)
        quotaDisplayMsg).error = "" := by
  decide

/-- C3 (amended): a session **close** event carrying quota text while recording
stops the recording, disables auto-reconnect (with no pending timer, none is
ever created), leaves `isConnecting = false`, and displays the quota error —
which the pending 5-second auto-clear then wipes unless it was superseded. -/
theorem C3_quota_on_close (gen : Nat) (model reason : String) (j : ℚ)
    (st : SessionState) (hgen : gen = st.currentSessionGen)
    (hrec : st.isRecording = true) (hquota : isQuotaError reason = true)
    (hne : reason ≠ "") (htimer : st.reconnectTimer = none) :
    (onclose gen model reason j st).isRecording = false ∧
      (onclose gen model reason j st).stopAutoReconnect = true ∧
      (onclose gen model reason j st).reconnectTimer = none ∧
      (onclose gen model reason j st).isConnecting = false ∧
      (onclose gen model reason j st).error = quotaDisplayMsg ∧
      (fireErrorClear (onclose gen model reason j st) quotaDisplayMsg).error =
        "" := by
  have g1 : ¬(gen ≠ st.currentSessionGen) := by simp [hgen]
  by_cases hu : isUnsupportedLiveError reason = true
  · simp [onclose, g1, hrec, hu, hne, hquota, htimer, quotaDisplayMsg,
      handleUnsupportedModel, handleConnectionIssue, updateError, updateStatus,
      logEvent, fireErrorClear]
    split_ifs <;> simp_all
  · simp [onclose, g1, hrec, hne, hquota, htimer, quotaDisplayMsg,
      handleUnsupportedModel, handleConnectionIssue, updateError, updateStatus,
      logEvent, fireErrorClear, hu]

/-- C3 witness: a concrete quota-text close event on the recording state. -/
theorem C3_quota_on_close_witness :
    ((1 : Nat) = recState.currentSessionGen ∧ recState.isRecording = true ∧
      isQuotaError "quota exceeded" = true ∧ "quota exceeded" ≠ "" ∧
      recState.reconnectTimer = none) ∧
      ((onclose 1 "A" "quota exceeded" 0 recState).isRecording = false ∧
        (onclose 1 "A" "quota exceeded" 0 recState).stopAutoReconnect = true ∧
        (onclose 1 "A" "quota exceeded" 0 recState).reconnectTimer = none ∧
        (onclose 1 "A" "quota exceeded" 0 recState).isConnecting = false ∧
        (onclose 1 "A" "quota exceeded" 0 recState).error = quotaDisplayMsg ∧
        (fireErrorClear (onclose 1 "A" "quota exceeded" 0 recState)
          quotaDisplayMsg).error = "") :=
  ⟨⟨by decide, by decide, by decide, by decide, by decide⟩,
    C3_quota_on_close 1 "A" "quota exceeded" 0 recState (by decide) (by decide)
      (by decide) (by decide) (by decide)⟩

end SessionMachine

namespace SessionMachine

theorem models_logEvent (st : SessionState) (m ty : String) :
    (logEvent st m ty).models = st.models := rfl

theorem models_updateStatus (st : SessionState) (m : String) :
    (updateStatus st m).models = st.models := rfl

theorem models_updateError (st : SessionState) (m : String) :
    (updateError st m).models = st.models := rfl

theorem models_fireErrorClear (st : SessionState) (m : String) :
    (fireErrorClear st m).models = st.models := by
  unfold fireErrorClear
  split <;> rfl

theorem models_stopRecording (st : SessionState) :
    (stopRecording st).models = st.models := by
  unfold stopRecording
  split <;> rfl

theorem models_handleConnectionIssue (st : SessionState) (c : String) :
    (handleConnectionIssue st c).models = st.models := by
  unfold handleConnectionIssue
  split <;> rfl

theorem models_handleUnsupportedModel (st : SessionState) (m r : String) :
    (handleUnsupportedModel st m r).models = st.models.filter (· ≠ m) := by
  unfold handleUnsupportedModel logEvent
  dsimp only
  split <;> rfl

theorem models_scheduleReconnect (gen : Nat) (r : String) (j : ℚ)
    (st : SessionState) : (scheduleReconnect gen r j st).models = st.models := by
  unfold scheduleReconnect
  dsimp only
  repeat' split
  all_goals rfl

theorem not_mem_models_handleUnsupportedModel {x : String} {st : SessionState}
    (m r : String) (h : x ∉ st.models) :
    x ∉ (handleUnsupportedModel st m r).models := by
  rw [models_handleUnsupportedModel]
  intro hmem
  exact h (List.mem_of_mem_filter hmem)

theorem not_mem_models_connectLoop {x : String}
    (oc : String → Option String) (j : ℚ) (gen : Nat) (ms : List String)
    (le : Option String) (st : SessionState) (h : x ∉ st.models) :
    x ∉ (connectLoop oc j gen ms le st).models := by
  induction ms generalizing le st with
  | nil =>
    unfold connectLoop
    cases le with
    | none => exact h
    | some msg =>
      simp only
      split
      · rename_i hgen
        set st1 := { updateError st ("Falha ao conectar ao assistente: " ++ msg)
          with isConnecting := false, connecting := false } with hst1
        have h1 : x ∉ st1.models := by
          rw [hst1]
          simpa [models_updateError] using h
        set st2 := (if isUnsupportedLiveError msg then
            match st1.currentModel with
            | some cm => handleUnsupportedModel st1 cm msg
            | none => st1
          else st1) with hst2
        have h2 : x ∉ st2.models := by
          rw [hst2]
          split
          · cases st1.currentModel with
            | none => exact h1
            | some cm => exact not_mem_models_handleUnsupportedModel cm msg h1
          · exact h1
        have h3 : x ∉ (handleConnectionIssue st2 msg).models := by
          rw [models_handleConnectionIssue]
          exact h2
        split
        · rw [models_scheduleReconnect]
          exact h3
        · exact h3
      · exact h
  | cons m rest ih =>
    unfold connectLoop
    simp only
    cases oc m with
    | none =>
      simpa [logEvent] using h
    | some errMsg =>
      apply ih
      simpa [logEvent] using h

theorem not_mem_models_initSession {x : String}
    (oc : String → Option String) (j : ℚ) (d : String) (i : Option String)
    (st : SessionState) (h : x ∉ st.models) :
    x ∉ (initSession oc j d i st).models := by
  unfold initSession
  apply not_mem_models_connectLoop
  simp only [updateStatus, logEvent]
  split <;> split <;> split <;> split <;>
    simp_all [stopRecording, updateStatus, logEvent]

theorem not_mem_models_onopen {x : String} (gen : Nat) (m : String)
    (st : SessionState) (h : x ∉ st.models) : x ∉ (onopen gen m st).models := by
  unfold onopen
  split
  · exact h
  · dsimp only
    split <;> simp_all [updateStatus, logEvent]

theorem not_mem_models_onmessage {x : String} (gen : Nat) (msg : ServerMessage)
    (nowMs : ℚ) (times : List ℚ) (st : SessionState) (h : x ∉ st.models) :
    x ∉ (onmessage gen msg nowMs times st).models := by
  unfold onmessage
  dsimp only
  repeat' split
  all_goals simp_all [logEvent]

theorem not_mem_models_onerror {x : String} (gen : Nat) (m msg : String)
    (j : ℚ) (st : SessionState) (h : x ∉ st.models) :
    x ∉ (onerror gen m msg j st).models := by
  unfold onerror updateError logEvent handleConnectionIssue handleUnsupportedModel
  dsimp only
  repeat' split
  all_goals try rw [models_scheduleReconnect]
  all_goals simp_all [logEvent, updateError, updateStatus, List.mem_filter]

set_option maxHeartbeats 2000000 in
theorem not_mem_models_onclose {x : String} (gen : Nat) (m reason : String)
    (j : ℚ) (st : SessionState) (h : x ∉ st.models) :
    x ∉ (onclose gen m reason j st).models := by
  by_cases hg : gen ≠ st.currentSessionGen
  · simpa [onclose, hg] using h
  · by_cases hr : st.isRecording = true <;>
      by_cases hu : isUnsupportedLiveError reason = true <;>
      by_cases hq : isQuotaError (if reason = "" then "closed" else reason) = true <;>
      by_cases hstop : st.stopAutoReconnect = true <;>
      by_cases hs : st.lastModelStorage = some m <;>
      simp_all [onclose, handleUnsupportedModel, handleConnectionIssue,
        updateError, updateStatus, logEvent, models_scheduleReconnect,
        List.mem_filter]

theorem not_mem_models_reconnectTimerFire {x : String} (gen : Nat)
    (oc : String → Option String) (j : ℚ) (d : String) (st : SessionState)
    (h : x ∉ st.models) :
    x ∉ (reconnectTimerFire gen oc j d st).models := by
  unfold reconnectTimerFire
  split
  · exact h
  · apply not_mem_models_initSession
    simp only
    intro hmem
    exact h (List.mem_of_mem_filter hmem)

/-- No event-loop transition ever re-adds a model to the roster. -/
theorem sessionStep_not_mem_models {x : String} {s t : SessionState}
    (hstep : SessionStep s t) (h : x ∉ s.models) : x ∉ t.models := by
  cases hstep with
  | init_step oc j d i => exact not_mem_models_initSession oc j d i s h
  | onopen_step gen m => exact not_mem_models_onopen gen m s h
  | onmessage_step gen msg nowMs times =>
    exact not_mem_models_onmessage gen msg nowMs times s h
  | onerror_step gen m msg j => exact not_mem_models_onerror gen m msg j s h
  | onclose_step gen m reason j =>
    exact not_mem_models_onclose gen m reason j s h
  | timer_step gen oc j d =>
    exact not_mem_models_reconnectTimerFire gen oc j d s h
  | clear_step msg =>
    rw [models_fireErrorClear]
    exact h

theorem not_mem_attemptedModels (oc : String → Option String) {x : String} :
    ∀ l : List String, x ∉ l → x ∉ attemptedModels oc l := by
  intro l
  induction l with
  | nil =>
    intro _ h
    exact absurd h (List.not_mem_nil x)
  | cons m rest ih =>
    intro h
    unfold attemptedModels
    simp only [List.mem_cons, not_or] at h ⊢
    refine ⟨h.1, ?_⟩
    split
    · simp
    · exact ih h.2

end SessionMachine

namespace SessionMachine

/-- Connect outcome oracle for the C4 scenario: `live.connect` resolves for
every model (the unsupported-model failure surfaces afterwards through the
session's error callback, which is where the source inspects the error text). -/
def c4oc : String → Option String := fun _ => none

/-- An unsupported-model error text matching `isUnsupportedLiveError`. -/
def c4bad : String := "model not found for API version v1beta"

/-- C4 scenario, step 1: initial connect with roster `["A", "B"]`; model `"A"`
resolves (generation 1). -/
def c4s1 : SessionState := initSession c4oc 100 "instr" none (initialState ["A", "B"])

/-- Step 2: `onopen` fires for `"A"`: it becomes `currentModel` and the
persisted last-successful model. -/
def c4s2 : SessionState := onopen 1 "A" c4s1

/-- Step 3: the session errors with unsupported-model text for `"A"`. -/
def c4s3 : SessionState := onerror 1 "A" c4bad 100 c4s2

/-- Step 4: the scheduled reconnect fires and retries with the filtered
roster (generation 2); `"B"` resolves. -/
def c4s4 : SessionState := reconnectTimerFire 1 c4oc 100 "instr" c4s3

/-- Step 5: `onopen` fires for `"B"`. -/
def c4s5 : SessionState := onopen 2 "B" c4s4

/-- C4: with roster `["A","B"]`, an unsupported-model failure on `"A"`
permanently removes `"A"` from the roster and from the persisted
last-successful-model key, schedules a reconnect that attempts `"B"` next, and
after `"B"` connects `currentModel = "B"`; from then on no sequence of
event-loop transitions ever re-adds `"A"`, so no later reconnect or manual
`initSession` ever attempts `"A"` again. -/
theorem C4_unsupported_model_fallback :
    (isUnsupportedLiveError c4bad = true ∧
      c4s2.currentModel = some "A" ∧ c4s2.lastModelStorage = some "A" ∧
      c4s3.models = ["B"] ∧ c4s3.unsupportedModels = ["A"] ∧
      c4s3.lastModelStorage = none ∧ c4s3.reconnectTimer.isSome = true ∧
      c4s4.session = some (2, "B") ∧
      c4s5.currentModel = some "B" ∧ c4s5.lastModelStorage = some "B" ∧
      "A" ∉ c4s5.models) ∧
      ∀ st', Relation.ReflTransGen SessionStep c4s5 st' →
        "A" ∉ st'.models ∧
          ∀ oc2 : String → Option String, "A" ∉ attemptedModels oc2 st'.models := by
  refine ⟨⟨by decide, by decide, by decide, by decide, by decide, by decide,
    by decide, by decide, by decide, by decide, by decide⟩, ?_⟩
  intro st' hrt
  have hA : "A" ∉ st'.models := by
    induction hrt with
    | refl => decide
    | tail hab hbc ih => exact sessionStep_not_mem_models hbc ih
  exact ⟨hA, fun oc2 => not_mem_attemptedModels oc2 _ hA⟩

/-- C4 witness: the reachability conclusion instantiated at the scenario's
final state itself. -/
theorem C4_unsupported_model_fallback_witness :
    "A" ∉ c4s5.models ∧
      ∀ oc2 : String → Option String, "A" ∉ attemptedModels oc2 c4s5.models :=
  C4_unsupported_model_fallback.2 c4s5 Relation.ReflTransGen.refl

end SessionMachine
